import Mathlib

/-!
Shallow embedding of the whitelist bot core from src/Index.js: the single
cache slot (whitelistCache, lastFetch), the remote store client
(getContent / createOrUpdateFileContents with optimistic concurrency on
the sha), the command handlers (add, remove, bulk-add, bulk-remove,
clear), and the message collector used to confirm the clear command.
Strings from the source are modelled as lists of characters; time is a
natural number of milliseconds; the two octokit calls are counted so the
theorems can speak about how many remote calls a handler performs.
-/

/-- Character strings of the source, modelled as lists of characters. -/
abbrev Str := List Char

/-- Errors that can arise from the store or be thrown by the two core
functions.  The source wraps every caught error into one of two generic
Error values, modelled by the two generic constructors. -/
inductive JsError where
  | revisionConflict
  | remoteUnavailable
  | notFound
  | decodeError
  | fetchFailedGeneric
  | updateFailedGeneric
  deriving DecidableEq

/-- The persisted document: the whitelist field plus any other fields,
which pass through unmodified. -/
structure Doc where
  whitelist : List Nat
  extra : List (String × String)
  deriving DecidableEq

/-- The cache slot content: whitelistCache = \x7b data, sha \x7d in the source. -/
structure CacheEntry where
  data : Doc
  sha : Nat
  deriving DecidableEq

/-- The two module-level mutable variables whitelistCache and lastFetch. -/
structure BotState where
  whitelistCache : Option CacheEntry
  lastFetch : Nat
  deriving DecidableEq

/-- The remote store: current document content and its revision token.
A commit is accepted only when the presented sha equals rev. -/
structure Store where
  doc : Doc
  rev : Nat
  deriving DecidableEq

/-- Whole program state: bot state, remote store, and counters of the
remote calls actually issued (attempts, successful or not). -/
structure World where
  state : BotState
  store : Store
  fetchCount : Nat
  commitCount : Nat
  deriving DecidableEq

/-- CACHE_DURATION = 60000 milliseconds in the source. -/
def CACHE_DURATION : Nat := 60000

/-- The remote fetch inside fetchWhitelist: one octokit.repos.getContent
call.  An injected failure fe stands for any network, auth or decode
error; the catch block replaces it with the generic fetch error. -/
def fetchRemote (now : Nat) (fe : Option JsError) (w : World) :
    Except JsError CacheEntry × World :=
  let w1 : World := { w with fetchCount := w.fetchCount + 1 }
  match fe with
  | some _ => (Except.error JsError.fetchFailedGeneric, w1)
  | none =>
    let e : CacheEntry := ⟨w1.store.doc, w1.store.rev⟩
    (Except.ok e, { w1 with state := ⟨some e, now⟩ })

/-- fetchWhitelist from the source: return the cached entry when the
cache is non-null and younger than CACHE_DURATION, otherwise fetch from
the remote store and replace the cache slot. -/
def fetchWhitelist (now : Nat) (fe : Option JsError) (w : World) :
    Except JsError CacheEntry × World :=
  match w.state.whitelistCache with
  | some cached =>
    if now - w.state.lastFetch < CACHE_DURATION then
      (Except.ok cached, w)
    else
      fetchRemote now fe w
  | none => fetchRemote now fe w

/-- octokit.repos.createOrUpdateFileContents: accepted only when the
presented sha equals the current revision, otherwise the store rejects
the write with a revision conflict.  An injected failure ce stands for a
network or auth error. -/
def commitDocument (ce : Option JsError) (content : Doc) (sha : Nat) (w : World) :
    Except JsError Unit × World :=
  let w1 : World := { w with commitCount := w.commitCount + 1 }
  match ce with
  | some e => (Except.error e, w1)
  | none =>
    if sha = w1.store.rev then
      (Except.ok (), { w1 with store := ⟨content, w1.store.rev + 1⟩ })
    else
      (Except.error JsError.revisionConflict, w1)

/-- updateWhitelist from the source: fetch (normally a cache hit) to get
the sha, commit, and on success null the cache slot; any caught error is
replaced by the generic update error. -/
def updateWhitelist (now : Nat) (fe ce : Option JsError) (newWhitelist : Doc)
    (message : String) (w : World) : Except JsError Unit × World :=
  match fetchWhitelist now fe w with
  | (Except.error _, w1) => (Except.error JsError.updateFailedGeneric, w1)
  | (Except.ok currentData, w1) =>
    match commitDocument ce newWhitelist currentData.sha w1 with
    | (Except.error _, w2) => (Except.error JsError.updateFailedGeneric, w2)
    | (Except.ok _, w2) =>
      (Except.ok (), { w2 with state := { w2.state with whitelistCache := none } })

/-- String.prototype.split with separator comma. -/
def splitComma : Str → List Str
  | [] => [[]]
  | c :: rest =>
    if c = ',' then
      [] :: splitComma rest
    else
      match splitComma rest with
      | [] => [[c]]
      | t :: ts => (c :: t) :: ts

/-- String.prototype.trim: strip leading and trailing whitespace. -/
def trimStr (s : Str) : Str :=
  ((s.dropWhile Char.isWhitespace).reverse.dropWhile Char.isWhitespace).reverse

/-- The validation regex of the source: one or more digits and nothing
else. -/
def isDigitStr (s : Str) : Bool :=
  !s.isEmpty && s.all Char.isDigit

/-- parseInt on a pure digit string. -/
def digitsToNat (s : Str) : Nat :=
  s.foldl (fun n c => n * 10 + (c.toNat - 48)) 0

/-- The bulk id parsing of the source:
split on comma, trim each token, keep only pure digit tokens, parse. -/
def parseBulkIds (s : Str) : List Nat :=
  (((splitComma s).map trimStr).filter isDigitStr).map digitsToNat

/-- Array.prototype.indexOf restricted to a found-or-not option:
index of the first occurrence. -/
def firstIndexOf (x : Nat) : List Nat → Option Nat
  | [] => none
  | y :: ys => if y = x then some 0 else (firstIndexOf x ys).map (· + 1)

/-- The replies a handler can produce, abstracting the rendered embeds. -/
inductive Reply where
  | invalidId
  | alreadyWhitelisted (userId : Str)
  | addedUser (userId : Str)
  | notInWhitelist (userId : Str)
  | removedUser (userId : Str)
  | noValidIds
  | bulkAddResult (newlyAdded alreadyOnList : List Nat)
  | bulkRemoveResult (removed notOnList : List Nat)
  | cleared (oldCount : Nat)
  | clearCancelled
  | commandError (e : JsError)
  deriving DecidableEq

/-- The add subcommand handler.  The push onto whitelist.data.whitelist
mutates the cached object in place, so the cache slot is updated to the
appended document before the commit is attempted. -/
def addCommand (now : Nat) (fe ce : Option JsError) (userId reason : Str)
    (w : World) : Reply × World :=
  if !isDigitStr userId then (Reply.invalidId, w)
  else
    match fetchWhitelist now fe w with
    | (Except.error e, w1) => (Reply.commandError e, w1)
    | (Except.ok entry, w1) =>
      let idNum := digitsToNat userId
      if idNum ∈ entry.data.whitelist then
        (Reply.alreadyWhitelisted userId, w1)
      else
        let newDoc : Doc := { entry.data with whitelist := entry.data.whitelist ++ [idNum] }
        let w2 : World :=
          { w1 with state := { w1.state with whitelistCache := some ⟨newDoc, entry.sha⟩ } }
        match updateWhitelist now fe ce newDoc "Added user" w2 with
        | (Except.error e, w3) => (Reply.commandError e, w3)
        | (Except.ok _, w3) => (Reply.addedUser userId, w3)

/-- The remove subcommand handler: indexOf then splice of one element,
again mutating the cached document in place before the commit. -/
def removeCommand (now : Nat) (fe ce : Option JsError) (userId reason : Str)
    (w : World) : Reply × World :=
  if !isDigitStr userId then (Reply.invalidId, w)
  else
    match fetchWhitelist now fe w with
    | (Except.error e, w1) => (Reply.commandError e, w1)
    | (Except.ok entry, w1) =>
      let idNum := digitsToNat userId
      match firstIndexOf idNum entry.data.whitelist with
      | none => (Reply.notInWhitelist userId, w1)
      | some i =>
        let newList := entry.data.whitelist.take i ++ entry.data.whitelist.drop (i + 1)
        let newDoc : Doc := { entry.data with whitelist := newList }
        let w2 : World :=
          { w1 with state := { w1.state with whitelistCache := some ⟨newDoc, entry.sha⟩ } }
        match updateWhitelist now fe ce newDoc "Removed user" w2 with
        | (Except.error e, w3) => (Reply.commandError e, w3)
        | (Except.ok _, w3) => (Reply.removedUser userId, w3)

/-- The for-of loop of the bulk-add handler: returns the final list, the
already whitelisted ids and the newly added ids, in iteration order. -/
def bulkAddLoop : List Nat → List Nat → List Nat × List Nat × List Nat
  | wl, [] => (wl, [], [])
  | wl, i :: rest =>
    if i ∈ wl then
      let r := bulkAddLoop wl rest
      (r.1, i :: r.2.1, r.2.2)
    else
      let r := bulkAddLoop (wl ++ [i]) rest
      (r.1, r.2.1, i :: r.2.2)

/-- The for-of loop of the bulk-remove handler: returns the final list,
the ids not on the list and the removed ids, in iteration order. -/
def bulkRemoveLoop : List Nat → List Nat → List Nat × List Nat × List Nat
  | wl, [] => (wl, [], [])
  | wl, i :: rest =>
    match firstIndexOf i wl with
    | none =>
      let r := bulkRemoveLoop wl rest
      (r.1, i :: r.2.1, r.2.2)
    | some idx =>
      let r := bulkRemoveLoop (wl.take idx ++ wl.drop (idx + 1)) rest
      (r.1, r.2.1, i :: r.2.2)

/-- The bulk-add subcommand handler: parse, reject when no valid id
remains, loop over the ids mutating the cached document in place, then
commit once when at least one id was newly added. -/
def bulkAddCommand (now : Nat) (fe ce : Option JsError) (userIds reason : Str)
    (w : World) : Reply × World :=
  let idsToAdd := parseBulkIds userIds
  if idsToAdd.isEmpty then (Reply.noValidIds, w)
  else
    match fetchWhitelist now fe w with
    | (Except.error e, w1) => (Reply.commandError e, w1)
    | (Except.ok entry, w1) =>
      let r := bulkAddLoop entry.data.whitelist idsToAdd
      let newDoc : Doc := { entry.data with whitelist := r.1 }
      let w2 : World :=
        { w1 with state := { w1.state with whitelistCache := some ⟨newDoc, entry.sha⟩ } }
      if r.2.2.length > 0 then
        match updateWhitelist now fe ce newDoc "Bulk added users" w2 with
        | (Except.error e, w3) => (Reply.commandError e, w3)
        | (Except.ok _, w3) => (Reply.bulkAddResult r.2.2 r.2.1, w3)
      else (Reply.bulkAddResult r.2.2 r.2.1, w2)

/-- The bulk-remove subcommand handler, symmetric to bulk-add. -/
def bulkRemoveCommand (now : Nat) (fe ce : Option JsError) (userIds reason : Str)
    (w : World) : Reply × World :=
  let idsToRemove := parseBulkIds userIds
  if idsToRemove.isEmpty then (Reply.noValidIds, w)
  else
    match fetchWhitelist now fe w with
    | (Except.error e, w1) => (Reply.commandError e, w1)
    | (Except.ok entry, w1) =>
      let r := bulkRemoveLoop entry.data.whitelist idsToRemove
      let newDoc : Doc := { entry.data with whitelist := r.1 }
      let w2 : World :=
        { w1 with state := { w1.state with whitelistCache := some ⟨newDoc, entry.sha⟩ } }
      if r.2.2.length > 0 then
        match updateWhitelist now fe ce newDoc "Bulk removed users" w2 with
        | (Except.error e, w3) => (Reply.commandError e, w3)
        | (Except.ok _, w3) => (Reply.bulkRemoveResult r.2.2 r.2.1, w3)
      else (Reply.bulkRemoveResult r.2.2 r.2.1, w2)

/-- A channel message as seen by the confirmation collector: author,
content, and arrival time in milliseconds after the prompt. -/
structure Msg where
  authorId : Nat
  content : Str
  time : Nat
  deriving DecidableEq

/-- The collector filter of the clear handler, together with the 30000
millisecond window of the collector: same author as the invoker, content
exactly CONFIRM, arriving before the deadline. -/
def confirmFilter (uid : Nat) (m : Msg) : Bool :=
  (m.authorId == uid) && (m.content == "CONFIRM".toList) && decide (m.time < 30000)

/-- The collector with max one message: the first matching message of the
channel stream inside the window, if any. -/
def collectorFirst (uid : Nat) (msgs : List Msg) : Option Msg :=
  msgs.find? (confirmFilter uid)

/-- The clear subcommand handler: wait for a confirmation; on timeout
reply cancelled with no further action; on confirmation fetch, empty the
whitelist (mutating the cached document in place) and commit. -/
def clearCommand (now : Nat) (fe ce : Option JsError) (uid : Nat)
    (msgs : List Msg) (w : World) : Reply × World :=
  match collectorFirst uid msgs with
  | none => (Reply.clearCancelled, w)
  | some _ =>
    match fetchWhitelist now fe w with
    | (Except.error e, w1) => (Reply.commandError e, w1)
    | (Except.ok entry, w1) =>
      let oldCount := entry.data.whitelist.length
      let newDoc : Doc := { entry.data with whitelist := [] }
      let w2 : World :=
        { w1 with state := { w1.state with whitelistCache := some ⟨newDoc, entry.sha⟩ } }
      match updateWhitelist now fe ce newDoc "Cleared whitelist" w2 with
      | (Except.error e, w3) => (Reply.commandError e, w3)
      | (Except.ok _, w3) => (Reply.cleared oldCount, w3)

/-- Add semantics on a bare list, as one step of the specification:
append when absent, unchanged when present. -/
def addOnce (wl : List Nat) (i : Nat) : List Nat :=
  if i ∈ wl then wl else wl ++ [i]

/-- Specification form of the bulk id parsing: for each raw token, trim
it, keep it only when the trimmed token is a pure digit string. -/
def parseBulkIdsSpec (s : Str) : List Nat :=
  (splitComma s).filterMap fun t =>
    if isDigitStr (trimStr t) then some (digitsToNat (trimStr t)) else none

/-- A world whose cache slot holds the store document, freshly fetched at
time zero, with matching revision. -/
def freshWorld (l : List Nat) : World :=
  { state := { whitelistCache := some ⟨⟨l, []⟩, 0⟩, lastFetch := 0 }
    store := { doc := ⟨l, []⟩, rev := 0 }
    fetchCount := 0
    commitCount := 0 }

/-- A world with an empty cache slot. -/
def coldWorld (l : List Nat) : World :=
  { state := { whitelistCache := none, lastFetch := 0 }
    store := { doc := ⟨l, []⟩, rev := 0 }
    fetchCount := 0
    commitCount := 0 }

/-- A world whose cached revision token is stale: another writer advanced
the store to revision 5 after the cached entry was fetched. -/
def racedWorld (l : List Nat) : World :=
  { state := { whitelistCache := some ⟨⟨l, []⟩, 0⟩, lastFetch := 0 }
    store := { doc := ⟨l, []⟩, rev := 5 }
    fetchCount := 0
    commitCount := 0 }


/-! Helper lemmas about the cache, the loops and list splicing. -/

/-- A fresh cache entry is served unchanged, with no remote call. -/
theorem fetchWhitelist_hit (now : Nat) (fe : Option JsError) (w : World) (e : CacheEntry)
    (hc : w.state.whitelistCache = some e)
    (hf : now - w.state.lastFetch < CACHE_DURATION) :
    fetchWhitelist now fe w = (Except.ok e, w) := by
  unfold fetchWhitelist
  rw [hc]
  simp [hf]

/-- An empty cache slot forces a remote fetch and fills the slot. -/
theorem fetchWhitelist_cold (now : Nat) (w : World)
    (hc : w.state.whitelistCache = none) :
    fetchWhitelist now none w =
      (Except.ok ⟨w.store.doc, w.store.rev⟩,
       { w with state := ⟨some ⟨w.store.doc, w.store.rev⟩, now⟩,
                fetchCount := w.fetchCount + 1 }) := by
  unfold fetchWhitelist
  rw [hc]
  rfl

/-- A stale cache entry forces a remote fetch and replaces the slot. -/
theorem fetchWhitelist_stale (now : Nat) (w : World) (e : CacheEntry)
    (hc : w.state.whitelistCache = some e)
    (hf : CACHE_DURATION ≤ now - w.state.lastFetch) :
    fetchWhitelist now none w =
      (Except.ok ⟨w.store.doc, w.store.rev⟩,
       { w with state := ⟨some ⟨w.store.doc, w.store.rev⟩, now⟩,
                fetchCount := w.fetchCount + 1 }) := by
  unfold fetchWhitelist
  rw [hc]
  simp [Nat.not_lt.mpr hf]
  rfl

/-- Whatever entry a successful fetch returns is what the cache then holds. -/
theorem fetchWhitelist_ok_cache (now : Nat) (fe : Option JsError) (w w1 : World)
    (e : CacheEntry) (h : fetchWhitelist now fe w = (Except.ok e, w1)) :
    w1.state.whitelistCache = some e := by
  unfold fetchWhitelist fetchRemote at h
  cases hc : w.state.whitelistCache with
  | some cached =>
    rw [hc] at h
    by_cases hf : now - w.state.lastFetch < CACHE_DURATION
    · simp [hf] at h
      rw [← h.2, hc, h.1]
    · simp [hf] at h
      cases fe with
      | some er => simp at h
      | none =>
        simp at h
        rw [← h.2]
        rw [← h.1]
  | none =>
    rw [hc] at h
    cases fe with
    | some er => simp at h
    | none =>
      simp at h
      rw [← h.2]
      rw [← h.1]

/-- indexOf finds nothing exactly when the element is absent. -/
theorem firstIndexOf_eq_none_iff (x : Nat) (l : List Nat) :
    firstIndexOf x l = none ↔ x ∉ l := by
  induction l with
  | nil => simp [firstIndexOf]
  | cons y ys ih =>
    by_cases h : y = x
    · simp [firstIndexOf, h]
    · have hxy : ¬x = y := fun hx => h hx.symm
      simp [firstIndexOf, h, ih, hxy]

/-- indexOf finds the first occurrence. -/
theorem firstIndexOf_append_cons (x : Nat) (l1 l2 : List Nat) (h : x ∉ l1) :
    firstIndexOf x (l1 ++ x :: l2) = some l1.length := by
  induction l1 with
  | nil => simp [firstIndexOf]
  | cons y ys ih =>
    have hy : y ≠ x := fun e => h (e ▸ List.mem_cons_self y ys)
    have hrest : x ∉ ys := fun hm => h (List.mem_cons_of_mem _ hm)
    simp [firstIndexOf, hy, ih hrest]

/-- Splicing out the element at the index of its first occurrence keeps
everything around it, later duplicates included. -/
theorem splice_append_cons (x : Nat) (l1 l2 : List Nat) :
    (l1 ++ x :: l2).take l1.length ++ (l1 ++ x :: l2).drop (l1.length + 1) = l1 ++ l2 := by
  induction l1 with
  | nil => simp
  | cons y ys ih => simpa using ih

/-- The bulk-add loop on ids that are all present skips all of them. -/
theorem bulkAddLoop_all_mem (wl ids : List Nat) (h : ∀ i ∈ ids, i ∈ wl) :
    bulkAddLoop wl ids = (wl, ids, []) := by
  induction ids with
  | nil => rfl
  | cons i rest ih =>
    have hi : i ∈ wl := h i (List.mem_cons_self i rest)
    have hrest := ih (fun j hj => h j (List.mem_cons_of_mem _ hj))
    simp [bulkAddLoop, hi, hrest]

/-- The bulk-remove loop on ids that are all absent skips all of them. -/
theorem bulkRemoveLoop_all_not_mem (wl ids : List Nat) (h : ∀ i ∈ ids, i ∉ wl) :
    bulkRemoveLoop wl ids = (wl, ids, []) := by
  induction ids with
  | nil => rfl
  | cons i rest ih =>
    have hi : firstIndexOf i wl = none :=
      (firstIndexOf_eq_none_iff i wl).mpr (h i (List.mem_cons_self i rest))
    have hrest := ih (fun j hj => h j (List.mem_cons_of_mem _ hj))
    simp [bulkRemoveLoop, hi, hrest]

/-- The final list of the bulk-add loop is a left fold of single add
semantics: each id is tested against the list as mutated by the ids
before it. -/
theorem bulkAddLoop_fst_foldl (ids wl : List Nat) :
    (bulkAddLoop wl ids).1 = ids.foldl addOnce wl := by
  induction ids generalizing wl with
  | nil => rfl
  | cons i rest ih =>
    by_cases hi : i ∈ wl
    · simp [bulkAddLoop, hi, addOnce, ih]
    · simp [bulkAddLoop, hi, addOnce, ih]

/-- Neither fetch path touches the commit counter. -/
theorem fetchWhitelist_commitCount (now : Nat) (fe : Option JsError) (w : World) :
    (fetchWhitelist now fe w).2.commitCount = w.commitCount := by
  unfold fetchWhitelist fetchRemote
  cases w.state.whitelistCache with
  | some cached =>
    by_cases hf : now - w.state.lastFetch < CACHE_DURATION
    · simp [hf]
    · simp [hf]
      cases fe <;> rfl
  | none => cases fe <;> rfl

/-- A commit attempt bumps the commit counter by exactly one. -/
theorem commitDocument_commitCount (ce : Option JsError) (d : Doc) (sha : Nat) (w : World) :
    (commitDocument ce d sha w).2.commitCount = w.commitCount + 1 := by
  unfold commitDocument
  cases ce with
  | some e => rfl
  | none =>
    by_cases hs : sha = w.store.rev
    · simp [hs]
    · simp [hs]

/-- One updateWhitelist call issues at most one commit. -/
theorem updateWhitelist_commitCount (now : Nat) (fe ce : Option JsError) (d : Doc)
    (m : String) (w : World) :
    (updateWhitelist now fe ce d m w).2.commitCount ≤ w.commitCount + 1 := by
  unfold updateWhitelist
  rcases hfw : fetchWhitelist now fe w with ⟨r, w1⟩
  have hcc : w1.commitCount = w.commitCount := by
    have h2 := fetchWhitelist_commitCount now fe w
    rw [hfw] at h2
    exact h2
  cases r with
  | error e =>
    simp only [hcc]
    exact Nat.le_succ _
  | ok entry =>
    rcases hcd : commitDocument ce d entry.sha w1 with ⟨r2, w2⟩
    have hcc2 : w2.commitCount = w1.commitCount + 1 := by
      have h3 := commitDocument_commitCount ce d entry.sha w1
      rw [hcd] at h3
      exact h3
    cases r2 with
    | error e => simp [hcd, hcc2, hcc]
    | ok u => simp [hcd, hcc2, hcc]

/-! The claims. -/

/-- C1 (amended): a mutation request that applies zero changes through the
add, remove, bulk-add or bulk-remove handlers reports the ids as skipped
and leaves the world untouched, in particular performing zero commits;
the clear handler, however, always commits once confirmed, even over an
already-empty list. -/
theorem C1_noop_mutations_skip_commit
    (now : Nat) (fe ce : Option JsError) (uid ids reason : Str) (w : World) (e : CacheEntry)
    (hc : w.state.whitelistCache = some e)
    (hf : now - w.state.lastFetch < CACHE_DURATION) :
    (isDigitStr uid = true → digitsToNat uid ∈ e.data.whitelist →
       addCommand now fe ce uid reason w = (Reply.alreadyWhitelisted uid, w)) ∧
    (isDigitStr uid = true → digitsToNat uid ∉ e.data.whitelist →
       removeCommand now fe ce uid reason w = (Reply.notInWhitelist uid, w)) ∧
    (parseBulkIds ids ≠ [] → (∀ i ∈ parseBulkIds ids, i ∈ e.data.whitelist) →
       bulkAddCommand now fe ce ids reason w = (Reply.bulkAddResult [] (parseBulkIds ids), w)) ∧
    (parseBulkIds ids ≠ [] → (∀ i ∈ parseBulkIds ids, i ∉ e.data.whitelist) →
       bulkRemoveCommand now fe ce ids reason w = (Reply.bulkRemoveResult [] (parseBulkIds ids), w)) := by
  have hhit := fetchWhitelist_hit now fe w e hc hf
  have hstate : { w.state with whitelistCache := some e } = w.state := by
    rw [← hc]
  refine ⟨fun hd hm => ?_, fun hd hm => ?_, fun hne hall => ?_, fun hne hall => ?_⟩
  · simp [addCommand, hd, hhit, hm]
  · simp [removeCommand, hd, hhit, (firstIndexOf_eq_none_iff _ _).mpr hm]
  · have hl := bulkAddLoop_all_mem e.data.whitelist (parseBulkIds ids) hall
    have hne2 : (parseBulkIds ids).isEmpty = false := by
      cases hpp : parseBulkIds ids with
      | nil => exact absurd hpp hne
      | cons a l => rfl
    simp [bulkAddCommand, hne2, hhit, hl, hstate]
  · have hl := bulkRemoveLoop_all_not_mem e.data.whitelist (parseBulkIds ids) hall
    have hne2 : (parseBulkIds ids).isEmpty = false := by
      cases hpp : parseBulkIds ids with
      | nil => exact absurd hpp hne
      | cons a l => rfl
    simp [bulkRemoveCommand, hne2, hhit, hl, hstate]

/-- C1 counterexample: a confirmed clear over an already-empty whitelist
still issues one commit, contradicting the zero-commit claim for the
clear case. -/
theorem C1_counterexample_clear_empty_commits :
    clearCommand 0 none none 42 [⟨42, "CONFIRM".toList, 5⟩] (freshWorld []) =
      (Reply.cleared 0,
       { state := { whitelistCache := none, lastFetch := 0 },
         store := { doc := ⟨[], []⟩, rev := 1 },
         fetchCount := 0, commitCount := 1 }) := rfl

/-- C1 witness: concrete no-op add and bulk-add leave the world untouched. -/
theorem C1_witness :
    (freshWorld [1, 2]).state.whitelistCache = some ⟨⟨[1, 2], []⟩, 0⟩ ∧
    (0 : Nat) - (freshWorld [1, 2]).state.lastFetch < CACHE_DURATION ∧
    addCommand 0 none none "1".toList [] (freshWorld [1, 2]) =
      (Reply.alreadyWhitelisted "1".toList, freshWorld [1, 2]) ∧
    bulkAddCommand 0 none none "1, 2".toList [] (freshWorld [1, 2]) =
      (Reply.bulkAddResult [] [1, 2], freshWorld [1, 2]) := by
  have h := C1_noop_mutations_skip_commit 0 none none "1".toList "1, 2".toList []
    (freshWorld [1, 2]) ⟨⟨[1, 2], []⟩, 0⟩ rfl (by decide)
  exact ⟨rfl, by decide, h.1 rfl (by decide), h.2.2.1 (by decide) (by decide)⟩

/-- C2: at the failing input, the in-place push dirties the cache before
the commit, so after the failed commit the cached document holds the
mutated list while the store still holds the last-fetched content. -/
theorem C2_failed_commit_leaves_mutated_cache :
    addCommand 0 none (some JsError.remoteUnavailable) "2".toList [] (freshWorld [1]) =
      (Reply.commandError JsError.updateFailedGeneric,
       { state := { whitelistCache := some ⟨⟨[1, 2], []⟩, 0⟩, lastFetch := 0 },
         store := { doc := ⟨[1], []⟩, rev := 0 },
         fetchCount := 0, commitCount := 1 }) ∧
    (addCommand 0 none (some JsError.remoteUnavailable) "2".toList [] (freshWorld [1])).2.state.whitelistCache
      ≠ some ⟨(freshWorld [1]).store.doc, 0⟩ :=
  ⟨rfl, by decide⟩

/-- C3: after a successful read, a second read within the TTL returns the
identical entry and the identical world (so no remote call); a read after
the TTL has elapsed, or on an invalidated (empty) cache slot, performs a
remote fetch and installs a fresh entry. -/
theorem C3_ttl_read_behavior
    (t1 t2 : Nat) (w w1 : World) (e : CacheEntry)
    (h1 : fetchWhitelist t1 none w = (Except.ok e, w1)) :
    (t2 - w1.state.lastFetch < CACHE_DURATION →
        fetchWhitelist t2 none w1 = (Except.ok e, w1)) ∧
    (CACHE_DURATION ≤ t2 - w1.state.lastFetch →
        fetchWhitelist t2 none w1 =
          (Except.ok ⟨w1.store.doc, w1.store.rev⟩,
           { w1 with state := ⟨some ⟨w1.store.doc, w1.store.rev⟩, t2⟩,
                     fetchCount := w1.fetchCount + 1 })) ∧
    (∀ w2 : World, w2.state.whitelistCache = none →
        fetchWhitelist t2 none w2 =
          (Except.ok ⟨w2.store.doc, w2.store.rev⟩,
           { w2 with state := ⟨some ⟨w2.store.doc, w2.store.rev⟩, t2⟩,
                     fetchCount := w2.fetchCount + 1 })) := by
  have hcache := fetchWhitelist_ok_cache t1 none w w1 e h1
  exact ⟨fun hf => fetchWhitelist_hit t2 none w1 e hcache hf,
         fun hs => fetchWhitelist_stale t2 w1 e hcache hs,
         fun w2 hn => fetchWhitelist_cold t2 w2 hn⟩

/-- C3 witness: a cold read at time 0 followed by a read at time 5 serves
the identical entry from the cache, and a read at time 60000 refetches. -/
theorem C3_witness :
    fetchWhitelist 0 none (coldWorld [3]) =
      (Except.ok ⟨⟨[3], []⟩, 0⟩,
       { state := ⟨some ⟨⟨[3], []⟩, 0⟩, 0⟩, store := ⟨⟨[3], []⟩, 0⟩,
         fetchCount := 1, commitCount := 0 }) ∧
    fetchWhitelist 5 none
      { state := ⟨some ⟨⟨[3], []⟩, 0⟩, 0⟩, store := ⟨⟨[3], []⟩, 0⟩,
        fetchCount := 1, commitCount := 0 } =
      (Except.ok ⟨⟨[3], []⟩, 0⟩,
       { state := ⟨some ⟨⟨[3], []⟩, 0⟩, 0⟩, store := ⟨⟨[3], []⟩, 0⟩,
         fetchCount := 1, commitCount := 0 }) ∧
    fetchWhitelist 60000 none
      { state := ⟨some ⟨⟨[3], []⟩, 0⟩, 0⟩, store := ⟨⟨[3], []⟩, 0⟩,
        fetchCount := 1, commitCount := 0 } =
      (Except.ok ⟨⟨[3], []⟩, 0⟩,
       { state := ⟨some ⟨⟨[3], []⟩, 0⟩, 60000⟩, store := ⟨⟨[3], []⟩, 0⟩,
         fetchCount := 2, commitCount := 0 }) := by
  have h := C3_ttl_read_behavior 0 5 (coldWorld [3])
    { state := ⟨some ⟨⟨[3], []⟩, 0⟩, 0⟩, store := ⟨⟨[3], []⟩, 0⟩,
      fetchCount := 1, commitCount := 0 } ⟨⟨[3], []⟩, 0⟩ rfl
  have h2 := C3_ttl_read_behavior 0 60000 (coldWorld [3])
    { state := ⟨some ⟨⟨[3], []⟩, 0⟩, 0⟩, store := ⟨⟨[3], []⟩, 0⟩,
      fetchCount := 1, commitCount := 0 } ⟨⟨[3], []⟩, 0⟩ rfl
  exact ⟨rfl, h.1 (by decide), h2.2.1 (by decide)⟩

/-- C4: a successful updateWhitelist leaves the cache slot empty, and any
later read, at any time, refetches from the store. -/
theorem C4_successful_write_invalidates
    (now : Nat) (fe ce : Option JsError) (d : Doc) (m : String) (w w1 : World)
    (h : updateWhitelist now fe ce d m w = (Except.ok (), w1)) :
    w1.state.whitelistCache = none ∧
    ∀ t, fetchWhitelist t none w1 =
      (Except.ok ⟨w1.store.doc, w1.store.rev⟩,
       { w1 with state := ⟨some ⟨w1.store.doc, w1.store.rev⟩, t⟩,
                 fetchCount := w1.fetchCount + 1 }) := by
  have hnone : w1.state.whitelistCache = none := by
    unfold updateWhitelist at h
    rcases hfw : fetchWhitelist now fe w with ⟨r, wa⟩
    rw [hfw] at h
    cases r with
    | error e => simp at h
    | ok entry =>
      rcases hcd : commitDocument ce d entry.sha wa with ⟨r2, wb⟩
      simp only [hcd] at h
      cases r2 with
      | error e2 => simp at h
      | ok u =>
        simp at h
        rw [← h]
  exact ⟨hnone, fun t => fetchWhitelist_cold t w1 hnone⟩

/-- C4 witness: a concrete successful write clears the cache and the next
read refetches. -/
theorem C4_witness :
    updateWhitelist 0 none none ⟨[2], []⟩ "m" (freshWorld [1]) =
      (Except.ok (),
       { state := { whitelistCache := none, lastFetch := 0 },
         store := { doc := ⟨[2], []⟩, rev := 1 },
         fetchCount := 0, commitCount := 1 }) ∧
    ({ state := { whitelistCache := none, lastFetch := 0 },
       store := { doc := ⟨[2], []⟩, rev := 1 },
       fetchCount := 0, commitCount := 1 } : World).state.whitelistCache = none ∧
    fetchWhitelist 1 none
      { state := { whitelistCache := none, lastFetch := 0 },
        store := { doc := ⟨[2], []⟩, rev := 1 },
        fetchCount := 0, commitCount := 1 } =
      (Except.ok ⟨⟨[2], []⟩, 1⟩,
       { state := ⟨some ⟨⟨[2], []⟩, 1⟩, 1⟩,
         store := { doc := ⟨[2], []⟩, rev := 1 },
         fetchCount := 1, commitCount := 1 }) := by
  have h := C4_successful_write_invalidates 0 none none ⟨[2], []⟩ "m" (freshWorld [1])
    { state := { whitelistCache := none, lastFetch := 0 },
      store := { doc := ⟨[2], []⟩, rev := 1 },
      fetchCount := 0, commitCount := 1 } rfl
  exact ⟨rfl, h.1, h.2 1⟩

/-- C5 counterexample: at a concrete lost race the store rejects the
commit with a revision conflict, yet updateWhitelist surfaces the same
generic error it surfaces for a network failure, so the error does not
propagate unchanged and the caller cannot tell the two apart. -/
theorem C5_counterexample_conflict_error_replaced :
    (commitDocument none ⟨[1, 9], []⟩ 0 (racedWorld [1])).1 =
      Except.error JsError.revisionConflict ∧
    (updateWhitelist 0 none none ⟨[1, 9], []⟩ "m" (racedWorld [1])).1 =
      Except.error JsError.updateFailedGeneric ∧
    (updateWhitelist 0 none (some JsError.remoteUnavailable) ⟨[1, 9], []⟩ "m" (freshWorld [1])).1 =
      Except.error JsError.updateFailedGeneric :=
  ⟨rfl, rfl, rfl⟩

/-- C5 (amended): no store failure is swallowed — a failing fetch or
commit always surfaces as an error — but the original error, a revision
conflict included, is replaced by one of the two generic errors, so the
caller cannot distinguish the failure kinds. -/
theorem C5_amended_failures_surface_as_generic
    (now : Nat) (fe ce : Option JsError) (er : JsError) (d : Doc) (m : String)
    (w : World) (e : CacheEntry) :
    (∀ r w1, updateWhitelist now fe ce d m w = (r, w1) →
        r = Except.ok () ∨ r = Except.error JsError.updateFailedGeneric) ∧
    (ce = some er →
        (updateWhitelist now fe ce d m w).1 = Except.error JsError.updateFailedGeneric) ∧
    (w.state.whitelistCache = some e → now - w.state.lastFetch < CACHE_DURATION →
        e.sha ≠ w.store.rev → ce = none →
        (updateWhitelist now fe ce d m w).1 = Except.error JsError.updateFailedGeneric) ∧
    (w.state.whitelistCache = none → fe = some er →
        (fetchWhitelist now fe w).1 = Except.error JsError.fetchFailedGeneric) := by
  refine ⟨?_, ?_, ?_, ?_⟩
  · intro r w1 h
    unfold updateWhitelist at h
    rcases hfw : fetchWhitelist now fe w with ⟨ra, wa⟩
    rw [hfw] at h
    cases ra with
    | error e2 =>
      simp at h
      exact Or.inr h.1.symm
    | ok entry =>
      rcases hcd : commitDocument ce d entry.sha wa with ⟨r2, wb⟩
      simp only [hcd] at h
      cases r2 with
      | error e3 =>
        simp at h
        exact Or.inr h.1.symm
      | ok u =>
        simp at h
        exact Or.inl h.1.symm
  · intro hce
    subst hce
    unfold updateWhitelist
    rcases hfw : fetchWhitelist now fe w with ⟨ra, wa⟩
    cases ra with
    | error e2 => rfl
    | ok entry => rfl
  · intro hc hf hsha hce
    subst hce
    unfold updateWhitelist
    rw [fetchWhitelist_hit now fe w e hc hf]
    simp [commitDocument, hsha]
  · intro hc hfe
    subst hfe
    unfold fetchWhitelist fetchRemote
    rw [hc]

/-- C5 witness: the amended statement applied to the concrete lost race
and to a concrete network failure. -/
theorem C5_witness :
    (racedWorld [1]).state.whitelistCache = some ⟨⟨[1], []⟩, 0⟩ ∧
    (0 : Nat) - (racedWorld [1]).state.lastFetch < CACHE_DURATION ∧
    (⟨⟨[1], []⟩, 0⟩ : CacheEntry).sha ≠ (racedWorld [1]).store.rev ∧
    (updateWhitelist 0 none none ⟨[1, 9], []⟩ "m" (racedWorld [1])).1 =
      Except.error JsError.updateFailedGeneric ∧
    (updateWhitelist 0 none (some JsError.remoteUnavailable) ⟨[1, 9], []⟩ "m" (freshWorld [1])).1 =
      Except.error JsError.updateFailedGeneric := by
  have h := C5_amended_failures_surface_as_generic 0 none none JsError.remoteUnavailable
    ⟨[1, 9], []⟩ "m" (racedWorld [1]) ⟨⟨[1], []⟩, 0⟩
  have h2 := C5_amended_failures_surface_as_generic 0 none (some JsError.remoteUnavailable)
    JsError.remoteUnavailable ⟨[1, 9], []⟩ "m" (freshWorld [1]) ⟨⟨[1], []⟩, 0⟩
  exact ⟨rfl, by decide, by decide, h.2.2.1 rfl (by decide) (by decide) rfl, h2.2.1 rfl⟩

/-- Transport of the commit bound along a known updateWhitelist result. -/
theorem updateWhitelist_snd_commitCount_le (now : Nat) (fe ce : Option JsError)
    (d : Doc) (m : String) (w0 : World) (r : Except JsError Unit) (w3 : World)
    (h : updateWhitelist now fe ce d m w0 = (r, w3)) :
    w3.commitCount ≤ w0.commitCount + 1 := by
  have hb := updateWhitelist_commitCount now fe ce d m w0
  rw [h] at hb
  exact hb

/-- C6: the bulk-add loop applies single-add semantics to each id in the
caller-given order against the list as mutated by the earlier ids of the
same batch; a bulk-add issues at most one commit; and the concrete
scenario on whitelist [1,2,3] with input 2,4,4,5 yields newly added
[4,5], skipped [2,4], final whitelist [1,2,3,4,5] and exactly one commit. -/
theorem C6_bulk_add_batched_in_order
    (now : Nat) (fe ce : Option JsError) (ids reason : Str) (w : World) :
    (∀ wl l, (bulkAddLoop wl l).1 = l.foldl addOnce wl) ∧
    (bulkAddCommand now fe ce ids reason w).2.commitCount ≤ w.commitCount + 1 ∧
    bulkAddCommand 0 none none "2,4,4,5".toList [] (freshWorld [1, 2, 3]) =
      (Reply.bulkAddResult [4, 5] [2, 4],
       { state := { whitelistCache := none, lastFetch := 0 },
         store := { doc := ⟨[1, 2, 3, 4, 5], []⟩, rev := 1 },
         fetchCount := 0, commitCount := 1 }) := by
  refine ⟨fun wl l => bulkAddLoop_fst_foldl l wl, ?_, rfl⟩
  unfold bulkAddCommand
  by_cases hemp : (parseBulkIds ids).isEmpty
  · simp only [hemp, if_true]
    exact Nat.le_succ _
  · simp only [hemp, Bool.false_eq_true, if_false]
    rcases hfw : fetchWhitelist now fe w with ⟨ra, wa⟩
    have hwa : wa.commitCount = w.commitCount := by
      have h2 := fetchWhitelist_commitCount now fe w
      rw [hfw] at h2
      exact h2
    cases ra with
    | error e =>
      simp only [hwa]
      exact Nat.le_succ _
    | ok entry =>
      by_cases hlen :
          (bulkAddLoop entry.data.whitelist (parseBulkIds ids)).2.2.length > 0
      · simp only [hlen, if_true]
        split
        · rename_i e2 w3 heq
          have hb := updateWhitelist_snd_commitCount_le _ _ _ _ _ _ _ _ heq
          simp only [hwa] at hb ⊢
          simpa using hb
        · rename_i u w3 heq
          have hb := updateWhitelist_snd_commitCount_le _ _ _ _ _ _ _ _ heq
          simp only [hwa] at hb ⊢
          simpa using hb
      · simp only [hlen, if_false]
        simp only [hwa]
        exact Nat.le_succ _

/-- The collector filter accepts a message exactly when it is the
invoking user saying CONFIRM inside the 30 second window. -/
theorem confirmFilter_eq_true_iff (uid : Nat) (m : Msg) :
    confirmFilter uid m = true ↔
      (m.authorId = uid ∧ m.content = "CONFIRM".toList ∧ m.time < 30000) := by
  simp [confirmFilter, and_assoc]

/-- C7: when no message from the invoking user saying CONFIRM arrives
inside the 30 second window, clear is cancelled and the world is
untouched (no mutation, no commit); when such a confirmation arrives and
the cached entry is fresh with a valid revision, the whitelist is
emptied, committed once, and the old count reported. -/
theorem C7_clear_two_phase_confirmation
    (now : Nat) (fe ce : Option JsError) (uid : Nat) (msgs : List Msg)
    (w : World) (e : CacheEntry) :
    ((∀ m ∈ msgs, ¬(m.authorId = uid ∧ m.content = "CONFIRM".toList ∧ m.time < 30000)) →
        clearCommand now fe ce uid msgs w = (Reply.clearCancelled, w)) ∧
    ((∃ m ∈ msgs, m.authorId = uid ∧ m.content = "CONFIRM".toList ∧ m.time < 30000) →
     w.state.whitelistCache = some e → now - w.state.lastFetch < CACHE_DURATION →
     e.sha = w.store.rev → ce = none → fe = none →
        clearCommand now fe ce uid msgs w =
          (Reply.cleared e.data.whitelist.length,
           { state := { whitelistCache := none, lastFetch := w.state.lastFetch },
             store := { doc := ⟨[], e.data.extra⟩, rev := w.store.rev + 1 },
             fetchCount := w.fetchCount,
             commitCount := w.commitCount + 1 })) := by
  constructor
  · intro hno
    have hnone : collectorFirst uid msgs = none := by
      unfold collectorFirst
      rw [List.find?_eq_none]
      intro m hm
      cases hb : confirmFilter uid m with
      | false => exact Bool.false_ne_true
      | true => exact absurd ((confirmFilter_eq_true_iff uid m).mp hb) (hno m hm)
    unfold clearCommand
    rw [hnone]
  · intro hex hc hf hsha hce hfe
    subst hce hfe
    obtain ⟨m, hm, hprop⟩ := hex
    have hsome : ∃ m2, collectorFirst uid msgs = some m2 := by
      have : (collectorFirst uid msgs).isSome := by
        unfold collectorFirst
        rw [List.find?_isSome]
        exact ⟨m, hm, (confirmFilter_eq_true_iff uid m).mpr hprop⟩
      exact Option.isSome_iff_exists.mp this
    obtain ⟨m2, hm2⟩ := hsome
    unfold clearCommand
    rw [hm2, fetchWhitelist_hit now none w e hc hf]
    simp only [updateWhitelist]
    rw [fetchWhitelist_hit now none
      { w with state := { w.state with whitelistCache := some ⟨⟨[], e.data.extra⟩, e.sha⟩ } }
      ⟨⟨[], e.data.extra⟩, e.sha⟩ rfl hf]
    simp [commitDocument, hsha]

/-- C7 witness: a wrong-user CONFIRM cancels with no side effects; the
invoking user confirming within the window clears [10, 20] with one
commit. -/
theorem C7_witness :
    (∀ m ∈ [(⟨7, "CONFIRM".toList, 5⟩ : Msg)],
        ¬(m.authorId = 42 ∧ m.content = "CONFIRM".toList ∧ m.time < 30000)) ∧
    clearCommand 0 none none 42 [⟨7, "CONFIRM".toList, 5⟩] (freshWorld [10, 20]) =
      (Reply.clearCancelled, freshWorld [10, 20]) ∧
    (∃ m ∈ [(⟨42, "CONFIRM".toList, 5⟩ : Msg)],
        m.authorId = 42 ∧ m.content = "CONFIRM".toList ∧ m.time < 30000) ∧
    clearCommand 0 none none 42 [⟨42, "CONFIRM".toList, 5⟩] (freshWorld [10, 20]) =
      (Reply.cleared 2,
       { state := { whitelistCache := none, lastFetch := 0 },
         store := { doc := ⟨[], []⟩, rev := 1 },
         fetchCount := 0, commitCount := 1 }) := by
  have h1 := C7_clear_two_phase_confirmation 0 none none 42
    [⟨7, "CONFIRM".toList, 5⟩] (freshWorld [10, 20]) ⟨⟨[10, 20], []⟩, 0⟩
  have h2 := C7_clear_two_phase_confirmation 0 none none 42
    [⟨42, "CONFIRM".toList, 5⟩] (freshWorld [10, 20]) ⟨⟨[10, 20], []⟩, 0⟩
  refine ⟨by decide, h1.1 (by decide), by decide, ?_⟩
  exact h2.2 (by decide) rfl (by decide) rfl rfl rfl

/-- C8: removing an id splices out exactly the first occurrence, leaving
any later duplicate occurrences in place, and reports the removal; when
the id is absent nothing changes and the id is reported as not present. -/
theorem C8_remove_first_occurrence_only
    (now : Nat) (fe : Option JsError) (uid reason : Str) (w : World) (e : CacheEntry)
    (l1 l2 : List Nat)
    (hc : w.state.whitelistCache = some e)
    (hf : now - w.state.lastFetch < CACHE_DURATION)
    (hd : isDigitStr uid = true) :
    (digitsToNat uid ∉ e.data.whitelist →
        removeCommand now fe none uid reason w = (Reply.notInWhitelist uid, w)) ∧
    (e.data.whitelist = l1 ++ digitsToNat uid :: l2 → digitsToNat uid ∉ l1 →
     e.sha = w.store.rev →
        removeCommand now fe none uid reason w =
          (Reply.removedUser uid,
           { state := { whitelistCache := none, lastFetch := w.state.lastFetch },
             store := { doc := ⟨l1 ++ l2, e.data.extra⟩, rev := w.store.rev + 1 },
             fetchCount := w.fetchCount,
             commitCount := w.commitCount + 1 })) := by
  have hhit := fetchWhitelist_hit now fe w e hc hf
  constructor
  · intro hm
    simp [removeCommand, hd, hhit, (firstIndexOf_eq_none_iff _ _).mpr hm]
  · intro hwl hnin hsha
    unfold removeCommand
    rw [hhit]
    simp only [hd, Bool.not_true, Bool.false_eq_true, if_false]
    rw [hwl, firstIndexOf_append_cons _ _ _ hnin]
    simp only [updateWhitelist]
    rw [splice_append_cons]
    rw [fetchWhitelist_hit now fe
      { w with state := { w.state with
          whitelistCache := some ⟨⟨l1 ++ l2, e.data.extra⟩, e.sha⟩ } }
      ⟨⟨l1 ++ l2, e.data.extra⟩, e.sha⟩ rfl hf]
    simp [commitDocument, hsha]

/-- C8 witness: removing 5 from [5, 7, 5] removes only the first
occurrence, leaving [7, 5], with one commit. -/
theorem C8_witness :
    (freshWorld [5, 7, 5]).state.whitelistCache = some ⟨⟨[5, 7, 5], []⟩, 0⟩ ∧
    isDigitStr "5".toList = true ∧
    (⟨⟨[5, 7, 5], []⟩, 0⟩ : CacheEntry).data.whitelist =
      [] ++ digitsToNat "5".toList :: [7, 5] ∧
    removeCommand 0 none none "5".toList [] (freshWorld [5, 7, 5]) =
      (Reply.removedUser "5".toList,
       { state := { whitelistCache := none, lastFetch := 0 },
         store := { doc := ⟨[7, 5], []⟩, rev := 1 },
         fetchCount := 0, commitCount := 1 }) := by
  have h := C8_remove_first_occurrence_only 0 none "5".toList [] (freshWorld [5, 7, 5])
    ⟨⟨[5, 7, 5], []⟩, 0⟩ [] [7, 5] rfl (by decide) rfl
  refine ⟨rfl, rfl, by decide, ?_⟩
  exact h.2 (by decide) (by decide) rfl

/-- When the id is already on every list the handler can see, an add is a
pure skip: the store is untouched and the cache either stays as it was or
holds a fresh copy of the store document. -/
theorem addCommand_mem_keeps_store (t : Nat) (ce : Option JsError) (uid reason : Str)
    (w : World)
    (hd : isDigitStr uid = true)
    (hm : digitsToNat uid ∈ w.store.doc.whitelist)
    (hcache : ∀ e2, w.state.whitelistCache = some e2 → digitsToNat uid ∈ e2.data.whitelist) :
    (addCommand t none ce uid reason w).2.store = w.store ∧
    ((addCommand t none ce uid reason w).2.state.whitelistCache = w.state.whitelistCache ∨
     (addCommand t none ce uid reason w).2.state.whitelistCache =
       some ⟨w.store.doc, w.store.rev⟩) := by
  unfold addCommand
  cases hcs : w.state.whitelistCache with
  | some e2 =>
    have hme := hcache e2 hcs
    by_cases hft : t - w.state.lastFetch < CACHE_DURATION
    · rw [fetchWhitelist_hit t none w e2 hcs hft]
      simp [hd, hme, hcs]
    · rw [fetchWhitelist_stale t w e2 hcs (Nat.not_lt.mp hft)]
      simp [hd, hm]
  | none =>
    rw [fetchWhitelist_cold t w hcs]
    simp [hd, hm]

/-- A fresh add through a cold cache appends the id, commits once and
clears the cache slot. -/
theorem addCommand_new_cold (t : Nat) (uid reason : Str) (w : World)
    (hd : isDigitStr uid = true)
    (hc : w.state.whitelistCache = none)
    (hm : digitsToNat uid ∉ w.store.doc.whitelist) :
    addCommand t none none uid reason w =
      (Reply.addedUser uid,
       { state := { whitelistCache := none, lastFetch := t },
         store := { doc := ⟨w.store.doc.whitelist ++ [digitsToNat uid], w.store.doc.extra⟩,
                    rev := w.store.rev + 1 },
         fetchCount := w.fetchCount + 1,
         commitCount := w.commitCount + 1 }) := by
  have hlt : t - t < CACHE_DURATION := by
    rw [Nat.sub_self]
    decide
  unfold addCommand
  rw [fetchWhitelist_cold t w hc]
  simp only [hd, Bool.not_true, Bool.false_eq_true, if_false, hm, if_neg]
  simp only [updateWhitelist]
  rw [fetchWhitelist_hit t none
      { state := ⟨some ⟨⟨w.store.doc.whitelist ++ [digitsToNat uid], w.store.doc.extra⟩,
                        w.store.rev⟩, t⟩,
        store := w.store, fetchCount := w.fetchCount + 1, commitCount := w.commitCount }
      ⟨⟨w.store.doc.whitelist ++ [digitsToNat uid], w.store.doc.extra⟩, w.store.rev⟩
      rfl hlt]
  simp [commitDocument]

/-- C9: adding the same id twice in sequence, with the cache invalidated
in between by the successful first write, leaves the store list exactly
as after the first add, which itself equals one application of add
semantics. -/
theorem C9_add_idempotent
    (t1 t2 : Nat) (uid ra rb : Str) (w : World)
    (hd : isDigitStr uid = true)
    (hc : w.state.whitelistCache = none) :
    (addCommand t2 none none uid rb
        (addCommand t1 none none uid ra w).2).2.store.doc.whitelist
      = (addCommand t1 none none uid ra w).2.store.doc.whitelist ∧
    (addCommand t1 none none uid ra w).2.store.doc.whitelist
      = addOnce w.store.doc.whitelist (digitsToNat uid) := by
  by_cases hm : digitsToNat uid ∈ w.store.doc.whitelist
  · have h1 := addCommand_mem_keeps_store t1 none uid ra w hd hm
      (fun e2 he2 => by rw [hc] at he2; exact Option.noConfusion he2)
    have hm1 : digitsToNat uid ∈ (addCommand t1 none none uid ra w).2.store.doc.whitelist := by
      rw [h1.1]
      exact hm
    have hcache1 : ∀ e2,
        (addCommand t1 none none uid ra w).2.state.whitelistCache = some e2 →
        digitsToNat uid ∈ e2.data.whitelist := by
      intro e2 he2
      rcases h1.2 with hs | hs
      · rw [hs, hc] at he2
        exact Option.noConfusion he2
      · rw [hs] at he2
        injection he2 with he3
        rw [← he3]
        exact hm
    have h2 := addCommand_mem_keeps_store t2 none uid rb
      (addCommand t1 none none uid ra w).2 hd hm1 hcache1
    constructor
    · rw [h2.1]
    · rw [h1.1]
      simp [addOnce, hm]
  · have h1 := addCommand_new_cold t1 uid ra w hd hc hm
    have h1s : (addCommand t1 none none uid ra w).2 =
        { state := { whitelistCache := none, lastFetch := t1 },
          store := { doc := ⟨w.store.doc.whitelist ++ [digitsToNat uid], w.store.doc.extra⟩,
                     rev := w.store.rev + 1 },
          fetchCount := w.fetchCount + 1,
          commitCount := w.commitCount + 1 } := by
      rw [h1]
    have h2 := addCommand_mem_keeps_store t2 none uid rb
      { state := { whitelistCache := none, lastFetch := t1 },
        store := { doc := ⟨w.store.doc.whitelist ++ [digitsToNat uid], w.store.doc.extra⟩,
                   rev := w.store.rev + 1 },
        fetchCount := w.fetchCount + 1,
        commitCount := w.commitCount + 1 } hd (by simp)
      (fun e2 he2 => Option.noConfusion he2)
    constructor
    · rw [h1s, h2.1]
    · rw [h1s]
      simp [addOnce, hm]

/-- C9 witness: adding 7 twice over a cold cache on store [3] equals
adding it once, with final list [3, 7]. -/
theorem C9_witness :
    isDigitStr "7".toList = true ∧
    (coldWorld [3]).state.whitelistCache = none ∧
    (addCommand 1 none none "7".toList []
        (addCommand 0 none none "7".toList [] (coldWorld [3])).2).2.store.doc.whitelist
      = (addCommand 0 none none "7".toList [] (coldWorld [3])).2.store.doc.whitelist ∧
    (addCommand 0 none none "7".toList [] (coldWorld [3])).2.store.doc.whitelist = [3, 7] := by
  have h := C9_add_idempotent 0 1 "7".toList [] [] (coldWorld [3]) rfl rfl
  exact ⟨rfl, rfl, h.1, by decide⟩

/-- The map-filter-map pipeline of the source equals one filterMap pass:
trim each raw token, keep it only when the trimmed token is all digits. -/
theorem trimmed_filter_eq_filterMap (l : List Str) :
    ((l.map trimStr).filter isDigitStr).map digitsToNat =
      l.filterMap (fun t =>
        if isDigitStr (trimStr t) then some (digitsToNat (trimStr t)) else none) := by
  induction l with
  | nil => rfl
  | cons t ts ih =>
    by_cases h : isDigitStr (trimStr t) = true
    · simp [h, ih]
    · simp [h, ih]

/-- C10: bulk id parsing trims every comma-separated token and silently
discards the tokens that are not pure digit strings; a bulk command is
rejected exactly when no valid token remains, and otherwise proceeds;
single add and remove instead reject the whole command on one invalid
id. -/
theorem C10_bulk_ids_lenient_parsing
    (s uid reason : Str) (now : Nat) (fe ce : Option JsError) (w : World) :
    parseBulkIds s = parseBulkIdsSpec s ∧
    (parseBulkIds s = [] →
        bulkAddCommand now fe ce s reason w = (Reply.noValidIds, w) ∧
        bulkRemoveCommand now fe ce s reason w = (Reply.noValidIds, w)) ∧
    (parseBulkIds s ≠ [] →
        (bulkAddCommand now fe ce s reason w).1 ≠ Reply.noValidIds ∧
        (bulkRemoveCommand now fe ce s reason w).1 ≠ Reply.noValidIds) ∧
    (isDigitStr uid = false →
        addCommand now fe ce uid reason w = (Reply.invalidId, w) ∧
        removeCommand now fe ce uid reason w = (Reply.invalidId, w)) := by
  refine ⟨trimmed_filter_eq_filterMap (splitComma s), ?_, ?_, ?_⟩
  · intro hnil
    have hempty : (parseBulkIds s).isEmpty = true := by
      rw [hnil]
      rfl
    constructor
    · simp [bulkAddCommand, hempty]
    · simp [bulkRemoveCommand, hempty]
  · intro hne
    have hne2 : (parseBulkIds s).isEmpty = false := by
      cases hpp : parseBulkIds s with
      | nil => exact absurd hpp hne
      | cons a l => rfl
    constructor
    · unfold bulkAddCommand
      simp only [hne2, Bool.false_eq_true, if_false]
      rcases hfw : fetchWhitelist now fe w with ⟨rr, wa⟩
      cases rr with
      | error e => simp
      | ok entry =>
        by_cases hlen :
            (bulkAddLoop entry.data.whitelist (parseBulkIds s)).2.2.length > 0
        · simp only [hlen, if_true]
          split <;> simp
        · simp only [hlen, if_false]
          simp
    · unfold bulkRemoveCommand
      simp only [hne2, Bool.false_eq_true, if_false]
      rcases hfw : fetchWhitelist now fe w with ⟨rr, wa⟩
      cases rr with
      | error e => simp
      | ok entry =>
        by_cases hlen :
            (bulkRemoveLoop entry.data.whitelist (parseBulkIds s)).2.2.length > 0
        · simp only [hlen, if_true]
          split <;> simp
        · simp only [hlen, if_false]
          simp
  · intro hbad
    constructor
    · simp [addCommand, hbad]
    · simp [removeCommand, hbad]

/-- C10 witness: a mixed input keeps only the trimmed digit tokens 12 and
007, an all-invalid input is rejected, and single add rejects an id that
bulk parsing would have trimmed into validity. -/
theorem C10_witness :
    parseBulkIds "abc, 12,x7, 007,".toList = [12, 7] ∧
    parseBulkIds "foo".toList = [] ∧
    bulkAddCommand 0 none none "foo".toList [] (freshWorld [1]) =
      (Reply.noValidIds, freshWorld [1]) ∧
    isDigitStr " 5".toList = false ∧
    addCommand 0 none none " 5".toList [] (freshWorld [1]) =
      (Reply.invalidId, freshWorld [1]) ∧
    bulkAddCommand 0 none none " 5".toList [] (freshWorld [1]) =
      (Reply.bulkAddResult [5] [],
       { state := { whitelistCache := none, lastFetch := 0 },
         store := { doc := ⟨[1, 5], []⟩, rev := 1 },
         fetchCount := 0, commitCount := 1 }) := by
  have h := C10_bulk_ids_lenient_parsing "foo".toList " 5".toList [] 0 none none
    (freshWorld [1])
  exact ⟨rfl, rfl, (h.2.1 rfl).1, rfl, (h.2.2.2 rfl).1, rfl⟩
